import Mathlib

/-
Verification of the FinAgent conversation-orchestration engine.

The definitions below are a shallow embedding of the Python source:
profile completeness gating (src/condtition/condition.py, src/user_chat/node.py),
the guardrail fail-open logic (src/condtition/guardrail.py), the intent router
(src/condtition/condition.py), the bounded tool-call loop shared by the debate,
retriever and finance nodes, the 5-round/3-persona debate protocol
(src/debate/node.py) and the report stage (src/finance/node.py).

External collaborators (the LLM completion service, the Supabase store, the
market/news/document providers) are modelled as oracle parameters: the theorems
quantify over every possible behaviour of those collaborators.
-/

/-
Values stored in the `user_profile` dictionary.  The Python code stores
strings, numbers (floats such as `invest_experience_yr`), string lists
(`preferred_asset_types`) and possibly `None` (e.g. a NULL column loaded from
the store).  The completeness check only tests `val is None`, `val == ""` and
`val == []`; numeric values are represented by integers since no claim does
arithmetic on them and a Python number never compares equal to `""` or `[]`.
-/
inductive PValue where
  | vNone
  | vStr (s : String)
  | vNum (n : Int)
  | vList (l : List String)
deriving DecidableEq, Repr

/-- A Python dict from field names to values, as an association list where the
most recent binding comes first (Python `dict.update` overwrites keys). -/
def UserProfile := List (String × PValue)

/-- Model of Python `dict.get`: first binding wins. -/
def dictGet : UserProfile → String → Option PValue
  | [], _ => none
  | (k, v) :: rest, key => if k = key then some v else dictGet rest key

/-- Model of Python `dict[key] = value` (overwriting update). -/
def dictSet (p : UserProfile) (k : String) (v : PValue) : UserProfile :=
  (k, v) :: p

/-- The twelve required profile fields.  Identical lists appear in
src/condtition/condition.py (REQUIRED_FIELDS) and src/user_chat/node.py. -/
def REQUIRED_FIELDS : List String :=
  ["name_display", "age_range", "income_bracket",
   "invest_experience_yr", "financial_knowledge_level",
   "current_holdings_note", "preferred_asset_types",
   "risk_tolerance_level", "total_investable_amt",
   "goal_type", "goal_description", "preferred_style"]

/-- The emptiness test `val is None or val == "" or val == []` applied to a
present value. -/
def isEmptyValue : PValue → Bool
  | .vNone => true
  | .vStr s => s = ""
  | .vNum _ => false
  | .vList l => l.isEmpty

/-- A required field is missing when `user_profile.get(field)` is absent,
`None`, the empty string or the empty list. -/
def fieldMissing (profile : UserProfile) (field : String) : Bool :=
  match dictGet profile field with
  | none => true
  | some v => isEmptyValue v

/-- The `missing_fields` list built by both ConditionNode.run and
UserProfileChatNode.run: required fields filtered by the emptiness test,
in declaration order. -/
def missingFields (profile : UserProfile) : List String :=
  REQUIRED_FIELDS.filter (fun f => fieldMissing profile f)

/-- Completeness: ConditionNode tests `if missing_fields:` and
UserProfileChatNode tests `len(missing_fields) == 0`. -/
def profileComplete (profile : UserProfile) : Bool :=
  (missingFields profile).isEmpty

lemma fieldMissing_false_iff (p : UserProfile) (f : String) :
    fieldMissing p f = false ↔
      ∃ v, dictGet p f = some v ∧ isEmptyValue v = false := by
  unfold fieldMissing
  cases h : dictGet p f with
  | none => simp
  | some v =>
      constructor
      · intro hv; exact ⟨v, rfl, hv⟩
      · rintro ⟨w, hw, hwe⟩; cases hw; exact hwe

lemma profileComplete_iff (p : UserProfile) :
    profileComplete p = true ↔
      ∀ f ∈ REQUIRED_FIELDS, fieldMissing p f = false := by
  unfold profileComplete missingFields
  rw [List.isEmpty_iff, List.filter_eq_nil_iff]
  constructor
  · intro h f hf
    simpa using h f hf
  · intro h f hf
    simp [h f hf]

lemma dictGet_dictSet (p : UserProfile) (k : String) (v : PValue) (key : String) :
    dictGet (dictSet p k v) key = if k = key then some v else dictGet p key := rfl

/-- C1: the completeness check used by the router and the Profile Collector
returns complete iff each of the twelve required fields is present and
non-empty (not None, not the empty string, not the empty list); for any
profile missing exactly one field, adding a non-empty value for that field
flips the result from incomplete to complete. -/
theorem profile_completeness_spec (p : UserProfile) :
    (profileComplete p = true ↔
      ∀ f ∈ REQUIRED_FIELDS, ∃ v, dictGet p f = some v ∧ isEmptyValue v = false) ∧
    (∀ f v, missingFields p = [f] → isEmptyValue v = false →
      profileComplete p = false ∧ profileComplete (dictSet p f v) = true) := by
  constructor
  · rw [profileComplete_iff]
    constructor
    · intro h f hf
      exact (fieldMissing_false_iff p f).mp (h f hf)
    · intro h f hf
      exact (fieldMissing_false_iff p f).mpr (h f hf)
  · intro f v hone hv
    have hmem : ∀ g, fieldMissing p g = true → g ∈ REQUIRED_FIELDS → g = f := by
      intro g hg hgmem
      have : g ∈ missingFields p := by
        unfold missingFields
        exact List.mem_filter.mpr ⟨hgmem, hg⟩
      rw [hone] at this
      simpa using this
    constructor
    · unfold profileComplete
      rw [hone]
      rfl
    · rw [profileComplete_iff]
      intro g hg
      rw [fieldMissing_false_iff]
      by_cases hgf : f = g
      · subst hgf
        exact ⟨v, by rw [dictGet_dictSet]; simp, hv⟩
      · have hgp : fieldMissing p g = false := by
          cases hmg : fieldMissing p g with
          | false => rfl
          | true => exact absurd (hmem g hmg hg).symm hgf
        obtain ⟨w, hw, hwe⟩ := (fieldMissing_false_iff p g).mp hgp
        refine ⟨w, ?_, hwe⟩
        rw [dictGet_dictSet, if_neg hgf, hw]

/-- A profile in which every required field except `preferred_style` holds a
non-empty value. -/
def elevenFieldProfile : UserProfile :=
  [("name_display", .vStr "김철수"), ("age_range", .vStr "30대"),
   ("income_bracket", .vStr "5천~7천"), ("invest_experience_yr", .vNum 3),
   ("financial_knowledge_level", .vStr "intermediate"),
   ("current_holdings_note", .vStr "ETF 보유"),
   ("preferred_asset_types", .vList ["ETF", "주식"]),
   ("risk_tolerance_level", .vStr "moderate"),
   ("total_investable_amt", .vNum 50000000),
   ("goal_type", .vStr "long_term"), ("goal_description", .vStr "자산 증식")]

theorem profile_completeness_spec_witness :
    (profileComplete elevenFieldProfile = true ↔
      ∀ f ∈ REQUIRED_FIELDS, ∃ v, dictGet elevenFieldProfile f = some v ∧
        isEmptyValue v = false) ∧
    (profileComplete elevenFieldProfile = false ∧
      profileComplete (dictSet elevenFieldProfile "preferred_style" (.vStr "직설")) = true) :=
  ⟨(profile_completeness_spec elevenFieldProfile).1,
   (profile_completeness_spec elevenFieldProfile).2 "preferred_style" (.vStr "직설")
     (by decide) (by decide)⟩

/-
Substring membership, modelling the Python `pat in s` test.
-/

/-- Whether the first list is an initial segment of the second. -/
def charsLeadWith : List Char → List Char → Bool
  | [], _ => true
  | _ :: _, [] => false
  | a :: as, b :: bs => a = b && charsLeadWith as bs

/-- Whether `pat` occurs contiguously inside the second list. -/
def charsHaveSub (pat : List Char) : List Char → Bool
  | [] => pat.isEmpty
  | c :: rest => charsLeadWith pat (c :: rest) || charsHaveSub pat rest

/-- Python `pat in s` for strings. -/
def strHasSub (s pat : String) : Bool :=
  charsHaveSub pat.toList s.toList

/-
Guardrail node (src/condtition/guardrail.py) and the safety edge out of it
(check_safety in src/main.py and src/api.py).
-/

/-- Values stored in the guardrail-result dictionary. -/
inductive GVal where
  | gBool (b : Bool)
  | gStr (s : String)
deriving DecidableEq, Repr

/-- Generic Python dict as an association list, first binding wins. -/
def assocGet {β : Type} : List (String × β) → String → Option β
  | [], _ => none
  | (k, v) :: rest, key => if k = key then some v else assocGet rest key

def GuardDict := List (String × GVal)

/-- The fallback used when the guardrail completion call raises or its output
fails JSON parsing. -/
def errorGuardResult : GuardDict :=
  [("is_allowed", .gBool true), ("category", .gStr "finance"),
   ("reason", .gStr "Error handling")]

/-- The fallback used when parsing succeeded but `is_allowed` is absent. -/
def defaultPassResult : GuardDict :=
  [("is_allowed", .gBool true), ("category", .gStr "finance"),
   ("reason", .gStr "Default pass")]

/-- GuardrailNode.run: the completion call plus JSON parsing is an oracle
returning either the parsed dictionary or an exception message.  The
`except` branch fails open; a parsed dictionary missing `is_allowed` is
replaced by the default pass result. -/
def guardrailRun (llmOutcome : Except String GuardDict) : GuardDict :=
  match llmOutcome with
  | .error _ => errorGuardResult
  | .ok result =>
      if (assocGet result "is_allowed").isNone then defaultPassResult else result

/-- Python truthiness for guardrail-dict values. -/
def pyTruthy : GVal → Bool
  | .gBool b => b
  | .gStr s => !s.isEmpty

/-- Reading `guardrail_result.get("is_allowed", True)` as a condition. -/
def guardIsAllowed (d : GuardDict) : Bool :=
  match assocGet d "is_allowed" with
  | none => true
  | some v => pyTruthy v

/-- Model of check_safety in src/main.py: route to the router iff allowed. -/
def checkSafety (d : GuardDict) : String :=
  if guardIsAllowed d then "condition" else "__end__"

/-- C7: whenever the completion call of the safety classifier raises or its output
fails to parse, the safety result is deterministically
allowed = true, category = finance, and the turn proceeds to the router. -/
theorem guardrail_fail_open (e : String) :
    guardrailRun (.error e) = errorGuardResult ∧
    assocGet (guardrailRun (.error e)) "is_allowed" = some (.gBool true) ∧
    assocGet (guardrailRun (.error e)) "category" = some (.gStr "finance") ∧
    checkSafety (guardrailRun (.error e)) = "condition" :=
  ⟨rfl, rfl, rfl, rfl⟩

/-
Intent router (src/condtition/condition.py, ConditionNode).
-/

/-- Graph targets a routing decision can name (END is `endNode`). -/
inductive Route where
  | user_chat
  | retriever
  | debate
  | finance
  | endNode
deriving DecidableEq, Repr

/-- The explicit change/update keywords checked for rule 3. -/
def explicitKeywords : List String :=
  ["수정", "변경", "바꿔", "update", "change", "다시 입력"]

def hasExplicitKeyword (input : String) : Bool :=
  explicitKeywords.any (fun k => strHasSub input k)

/-- The node_map translating routing labels to graph nodes. -/
def nodeMap : List (String × Route) :=
  [("market_data", .retriever), ("investment_advisory", .debate),
   ("report_generation", .finance), ("profile_management", .user_chat)]

/-- Outcome of _decide_route followed by `route_decision.get("route",
"market_data")`: on any exception (LLM failure or JSON parse failure) the
fallback dict carries route `market_data`. -/
def decideRouteResult (outcome : Option (List (String × String))) : String :=
  match outcome with
  | none => "market_data"
  | some d => (assocGet d "route").getD "market_data"

/-- The Command returned by ConditionNode.run: a goto target, the value (if
any) written to the `original_query` state key, and whether the routing
completion call was issued. -/
structure RouterCommand where
  goto : Route
  originalQueryUpdate : Option String
  madeRoutingCall : Bool
deriving DecidableEq, Repr

/-- ConditionNode.run.  `routeOutcome` is the oracle for the routing
completion call (`none` models a raised exception or parse failure). -/
def conditionRun (gd : GuardDict) (profile : UserProfile) (userInput : String)
    (routeOutcome : Option (List (String × String))) : RouterCommand :=
  if !(guardIsAllowed gd) then ⟨.endNode, none, false⟩
  else if !(missingFields profile).isEmpty then ⟨.user_chat, none, false⟩
  else if assocGet gd "category" = some (.gStr "profile_update")
      && hasExplicitKeyword userInput then ⟨.user_chat, none, false⟩
  else if assocGet gd "category" = some (.gStr "general_chat") then
    ⟨.retriever, none, false⟩
  else
    ⟨(assocGet nodeMap (decideRouteResult routeOutcome)).getD .retriever, none, true⟩

/-- C4: the router applies its rules in fixed short-circuit order: blocked
turns terminate, incomplete profiles go to the Profile Collector, an explicit
profile_update keyword goes to the Profile Collector, general_chat goes to
Retrieval, and otherwise a routing completion call is issued whose four labels
map to Retrieval, Debate, Report and Profile Collector, with Retrieval as the
default on a parse failure or unknown label. -/
theorem router_rule_order (gd : GuardDict) (profile : UserProfile) (input : String)
    (outcome : Option (List (String × String))) :
    (guardIsAllowed gd = false →
      conditionRun gd profile input outcome = ⟨.endNode, none, false⟩) ∧
    (guardIsAllowed gd = true → missingFields profile ≠ [] →
      conditionRun gd profile input outcome = ⟨.user_chat, none, false⟩) ∧
    (guardIsAllowed gd = true → missingFields profile = [] →
      assocGet gd "category" = some (.gStr "profile_update") →
      hasExplicitKeyword input = true →
      conditionRun gd profile input outcome = ⟨.user_chat, none, false⟩) ∧
    (guardIsAllowed gd = true → missingFields profile = [] →
      ¬(assocGet gd "category" = some (.gStr "profile_update") ∧
          hasExplicitKeyword input = true) →
      assocGet gd "category" = some (.gStr "general_chat") →
      conditionRun gd profile input outcome = ⟨.retriever, none, false⟩) ∧
    (guardIsAllowed gd = true → missingFields profile = [] →
      ¬(assocGet gd "category" = some (.gStr "profile_update") ∧
          hasExplicitKeyword input = true) →
      assocGet gd "category" ≠ some (.gStr "general_chat") →
      conditionRun gd profile input outcome =
        ⟨(assocGet nodeMap (decideRouteResult outcome)).getD .retriever, none, true⟩) ∧
    (assocGet nodeMap "market_data" = some .retriever ∧
      assocGet nodeMap "investment_advisory" = some .debate ∧
      assocGet nodeMap "report_generation" = some .finance ∧
      assocGet nodeMap "profile_management" = some .user_chat) ∧
    decideRouteResult none = "market_data" ∧
    (∀ lbl : String, lbl ≠ "market_data" → lbl ≠ "investment_advisory" →
      lbl ≠ "report_generation" → lbl ≠ "profile_management" →
      (assocGet nodeMap lbl).getD Route.retriever = .retriever) := by
  refine ⟨?_, ?_, ?_, ?_, ?_, by decide, by decide, ?_⟩
  · intro h1
    simp [conditionRun, h1]
  · intro h1 h2
    have hmf : (missingFields profile).isEmpty = false := by
      cases hm : missingFields profile with
      | nil => exact absurd hm h2
      | cons a l => rfl
    simp [conditionRun, h1, hmf]
  · intro h1 h2 h3 h4
    simp [conditionRun, h1, h2, h3, h4]
  · intro h1 h2 h3 h4
    simp [conditionRun, h1, h2, h4]
  · intro h1 h2 h3 h4
    by_cases hA : assocGet gd "category" = some (.gStr "profile_update")
    · have hB : hasExplicitKeyword input = false := by
        cases hKB : hasExplicitKeyword input with
        | false => rfl
        | true => exact absurd ⟨hA, hKB⟩ h3
      simp [conditionRun, h1, h2, hA, hB, h4]
    · simp [conditionRun, h1, h2, hA, h4]
  · intro lbl h1 h2 h3 h4
    simp [nodeMap, assocGet, Ne.symm h1, Ne.symm h2, Ne.symm h3, Ne.symm h4]

/-- A guardrail result that allows the turn with category finance. -/
def financeOkGuard : GuardDict :=
  [("is_allowed", GVal.gBool true), ("category", GVal.gStr "finance"),
   ("reason", GVal.gStr "ok")]

/-- A profile with all twelve required fields filled. -/
def fullProfile : UserProfile :=
  dictSet elevenFieldProfile "preferred_style" (.vStr "직설")

theorem router_rule_order_witness :
    conditionRun financeOkGuard fullProfile "Compare Nvidia vs Tesla"
        (some [("route", "investment_advisory")]) =
      ⟨(assocGet nodeMap (decideRouteResult
          (some [("route", "investment_advisory")]))).getD .retriever, none, true⟩ ∧
    conditionRun financeOkGuard ([] : UserProfile) "Price of Apple" none =
      ⟨.user_chat, none, false⟩ :=
  ⟨(router_rule_order financeOkGuard fullProfile "Compare Nvidia vs Tesla"
      (some [("route", "investment_advisory")])).2.2.2.2.1
      (by decide) (by decide) (by decide) (by decide),
   (router_rule_order financeOkGuard [] "Price of Apple" none).2.1
      (by decide) (by decide)⟩

/-- C6 (code bug): no branch of ConditionNode.run ever writes the
`original_query` state key, so the question interrupted by profile collection
is never saved as a deferred query; in particular an allowed incomplete-profile
turn carrying the substantive question "Compare Nvidia vs Tesla" is routed to
the Profile Collector with no deferred query saved, even though
UserProfileChatNode.run and FinanceNode.run both read `original_query`. -/
theorem deferred_query_never_saved :
    (∀ gd profile input outcome,
      (conditionRun gd profile input outcome).originalQueryUpdate = none) ∧
    conditionRun financeOkGuard [] "Compare Nvidia vs Tesla" none =
      ⟨Route.user_chat, none, false⟩ := by
  constructor
  · intro gd profile input outcome
    unfold conditionRun
    repeat' split
    all_goals rfl
  · decide

/-
The bounded tool-call loop.  DebateNode._agent_turn, RetrieverNode._execute_react
and FinanceNode._execute_react share this exact control skeleton:
`for _ in range(2):` invoke the completion service with the tool catalog;
return its text if it requests no tools; otherwise append the assistant
message and one tool-result message per requested call and iterate; after the
loop, one final completion call without tool access.  The two iterations of
`range(2)` are transcribed below as the two nested conditionals; the
completion service is the oracle (the Bool argument records whether the tool
catalog was offered) and tool lookup/argument parsing/execution — whose
failures the source converts to error strings — is the `exec` oracle.
-/

structure ToolCall where
  name : String
  args : String
  id : String
deriving DecidableEq, Repr

structure LLMResponse where
  content : String
  toolCalls : List ToolCall
deriving DecidableEq, Repr

inductive LoopMsg where
  | system (s : String)
  | human (s : String)
  | ai (content : String) (toolCalls : List ToolCall)
  | tool (content : String) (id : String)
deriving DecidableEq, Repr

/-- Message extension of one tool round: the assistant message carrying the
tool calls, then one tool message per call. -/
def roundMsgs (exec : ToolCall → String) (msgs : List LoopMsg)
    (r : LLMResponse) : List LoopMsg :=
  msgs ++ [LoopMsg.ai r.content r.toolCalls] ++
    r.toolCalls.map (fun tc => LoopMsg.tool (exec tc) tc.id)

/-- The tool-call loop, returning the final text together with the trace of
completion calls made (flag = tool catalog offered). -/
def toolCallLoop (oracle : List LoopMsg → Bool → LLMResponse)
    (exec : ToolCall → String) (msgs : List LoopMsg) :
    String × List (Bool × LLMResponse) :=
  let r1 := oracle msgs true
  if r1.toolCalls.isEmpty then (r1.content, [(true, r1)])
  else
    let msgs1 := roundMsgs exec msgs r1
    let r2 := oracle msgs1 true
    if r2.toolCalls.isEmpty then (r2.content, [(true, r1), (true, r2)])
    else
      let rf := oracle (roundMsgs exec msgs1 r2) false
      (rf.content, [(true, r1), (true, r2), (false, rf)])

/-- Number of tool-invocation rounds in a trace: completion calls that offered
tools and whose response requested at least one tool call. -/
def toolRoundCount (tr : List (Bool × LLMResponse)) : Nat :=
  tr.countP (fun c => c.1 && !c.2.toolCalls.isEmpty)

/-- Number of completion calls made without tool access. -/
def noToolCallCount (tr : List (Bool × LLMResponse)) : Nat :=
  tr.countP (fun c => !c.1)

/-- C2: every invocation of the tool-call loop performs at most two
tool-invocation rounds regardless of how many tool calls the model requests
per round; if both rounds still requested tool calls, exactly one final
completion call is made without tool access and its text is the result. -/
theorem tool_loop_two_round_cap (oracle : List LoopMsg → Bool → LLMResponse)
    (exec : ToolCall → String) (msgs : List LoopMsg) :
    toolRoundCount (toolCallLoop oracle exec msgs).2 ≤ 2 ∧
    noToolCallCount (toolCallLoop oracle exec msgs).2 ≤ 1 ∧
    (toolRoundCount (toolCallLoop oracle exec msgs).2 = 2 →
      ∃ rf, (toolCallLoop oracle exec msgs).2.getLast? = some (false, rf) ∧
        (toolCallLoop oracle exec msgs).1 = rf.content ∧
        noToolCallCount (toolCallLoop oracle exec msgs).2 = 1) := by
  by_cases h1 : (oracle msgs true).toolCalls.isEmpty
  · refine ⟨?_, ?_, ?_⟩ <;>
      simp [toolCallLoop, h1, toolRoundCount, noToolCallCount]
  · by_cases h2 : (oracle (roundMsgs exec msgs (oracle msgs true)) true).toolCalls.isEmpty
    · refine ⟨?_, ?_, ?_⟩ <;>
        simp [toolCallLoop, h1, h2, toolRoundCount, noToolCallCount]
    · refine ⟨?_, ?_, ?_⟩ <;>
        simp [toolCallLoop, h1, h2, toolRoundCount, noToolCallCount]

/-- A model behaviour that requests a tool call whenever tools are offered. -/
def greedyOracle : List LoopMsg → Bool → LLMResponse := fun _ useTools =>
  if useTools then ⟨"", [⟨"search_news", "", "call_1"⟩]⟩ else ⟨"final answer", []⟩

def okExec : ToolCall → String := fun _ => "ok"

theorem tool_loop_two_round_cap_witness :
    ∃ rf, (toolCallLoop greedyOracle okExec []).2.getLast? = some (false, rf) ∧
      (toolCallLoop greedyOracle okExec []).1 = rf.content ∧
      noToolCallCount (toolCallLoop greedyOracle okExec []).2 = 1 :=
  (tool_loop_two_round_cap greedyOracle okExec []).2.2 (by decide)

/-
Debate stage (src/debate/node.py).
-/

/-- A conversation message as seen by the graph state. -/
inductive ChatMsg where
  | humanMsg (s : String)
  | aiMsg (s : String)
deriving DecidableEq, Repr

/-- Python `history[-6:]`. -/
def lastSix {α : Type} (l : List α) : List α := l.drop (l.length - 6)

/-- DebateNode._resolve_topic.  The summarising completion call is the
oracle; its input is the last six history turns and the user input, and the
code strips the returned content.  The Bool records whether the completion
call was made. -/
def resolveTopic (summOracle : List ChatMsg → String → String)
    (userInput : String) (history : List ChatMsg) : String × Bool :=
  if userInput.length > 15 then (userInput, false)
  else ((summOracle (lastSix history) userInput).trim, true)

/-- C9: user input longer than the 15-character threshold is returned verbatim
as the debate topic with no completion call; input at or below the threshold
is summarised from the last six history turns via one completion call. -/
theorem topic_resolution_threshold (summOracle : List ChatMsg → String → String)
    (input : String) (history : List ChatMsg) :
    (input.length > 15 → resolveTopic summOracle input history = (input, false)) ∧
    (input.length ≤ 15 →
      resolveTopic summOracle input history =
        ((summOracle (history.drop (history.length - 6)) input).trim, true)) := by
  constructor
  · intro h
    simp [resolveTopic, h]
  · intro h
    have h2 : ¬ input.length > 15 := by omega
    simp [resolveTopic, lastSix, h2]

def samsungOracle : List ChatMsg → String → String := fun _ _ => "삼성전자 분석"

def shortConfirmHistory : List ChatMsg :=
  [ChatMsg.humanMsg "삼성전자 3분기 실적 어때?", ChatMsg.aiMsg "토론을 시작할까요?"]

theorem topic_resolution_threshold_witness :
    resolveTopic samsungOracle "Analyze Samsung Electronics Q3 earnings" [] =
      ("Analyze Samsung Electronics Q3 earnings", false) ∧
    resolveTopic samsungOracle "네 해줘" shortConfirmHistory =
      ((samsungOracle (shortConfirmHistory.drop (shortConfirmHistory.length - 6))
          "네 해줘").trim, true) :=
  ⟨(topic_resolution_threshold samsungOracle
      "Analyze Samsung Electronics Q3 earnings" []).1 (by decide),
   (topic_resolution_threshold samsungOracle "네 해줘" shortConfirmHistory).2
      (by decide)⟩

/-- One debate persona: role label, Korean display name, style, opponent. -/
structure Persona where
  role : String
  name : String
  style : String
  opponent : String
deriving DecidableEq, Repr, Inhabited

/-- The fixed roster from DebateNode.run. -/
def debateAgents : List Persona :=
  [⟨"Conservative", "보수적 투자 전문가",
    "리스크 관리 최우선, 회의적, 팩트 체크 중시, 규제/금리 민감", "Aggressive"⟩,
   ⟨"Aggressive", "공격적 투자 전문가",
    "미래 성장성 중시, 혁신 기술, 낙관적, 하이 리스크 하이 리턴", "Conservative"⟩,
   ⟨"Balanced", "중립적 투자 전문가",
    "데이터 기반의 중용, 시장 흐름 파악, 양쪽 의견 조율", "Both"⟩]

/-- self.max_rounds. -/
def maxRounds : Nat := 5

/-- The nested loops `for round_i in range(1, 6): for agent in agents:` as a
flat list of (round, persona) turns. -/
def debateTurns : List (Nat × Persona) :=
  (List.range maxRounds).flatMap (fun i => debateAgents.map (fun a => (i + 1, a)))

/-- The transcript entry appended for one turn: `f"[{role_kr}]: {argument}"`,
where the argument is produced by one invocation of _agent_turn (the `argue`
oracle, fed the round-specific instruction determined by round and persona,
the topic and the transcript so far). -/
def mkLogEntry (argue : Nat → Persona → String → List String → String)
    (r : Nat) (a : Persona) (topic : String) (log : List String) : String :=
  "[" ++ a.name ++ "]: " ++ argue r a topic log

/-- The debate loop: each turn appends its entry to `debate_log` before the
next turn runs. -/
def debateLogAux (argue : Nat → Persona → String → List String → String)
    (topic : String) : List (Nat × Persona) → List String → List String
  | [], log => log
  | t :: rest, log =>
      debateLogAux argue topic rest (log ++ [mkLogEntry argue t.1 t.2 topic log])

/-- The final `debate_log` of DebateNode.run, starting empty. -/
def debateLog (argue : Nat → Persona → String → List String → String)
    (topic : String) : List String :=
  debateLogAux argue topic debateTurns []

/-- DebateNode.run: resolve the topic, run the 15 turns, make the verdict
call on the full transcript, re-resolve the topic, and return
(assistant message, collected debate_history, collected report_topic). -/
def debateNodeRun (argue : Nat → Persona → String → List String → String)
    (verdictOracle : String → List String → String)
    (summOracle : List ChatMsg → String → String)
    (userInput : String) (history : List ChatMsg) :
    String × List String × String :=
  let topic := (resolveTopic summOracle userInput history).1
  let log := debateLog argue topic
  (verdictOracle topic log, log, (resolveTopic summOracle userInput history).1)

lemma debateLogAux_length (argue : Nat → Persona → String → List String → String)
    (topic : String) : ∀ (turns : List (Nat × Persona)) (log : List String),
    (debateLogAux argue topic turns log).length = log.length + turns.length := by
  intro turns
  induction turns with
  | nil => intro log; simp [debateLogAux]
  | cons t rest ih =>
      intro log
      simp only [debateLogAux]
      rw [ih]
      simp
      omega

lemma debateLogAux_lead (argue : Nat → Persona → String → List String → String)
    (topic : String) : ∀ (turns : List (Nat × Persona)) (log : List String),
    log <+: debateLogAux argue topic turns log := by
  intro turns
  induction turns with
  | nil => intro log; simp [debateLogAux]
  | cons t rest ih =>
      intro log
      simp only [debateLogAux]
      exact (List.prefix_append log _).trans (ih _)

lemma leadGetElem {α : Type} {x y : List α} (h : x <+: y) {n : Nat}
    (hn : n < x.length) : y[n]? = x[n]? := by
  obtain ⟨t, rfl⟩ := h
  simp [List.getElem?_append, hn]

lemma leadTakeEq {α : Type} {x y : List α} (h : x <+: y) :
    y.take x.length = x :=
  (List.prefix_iff_eq_take.mp h).symm

lemma debateLogAux_getElem (argue : Nat → Persona → String → List String → String)
    (topic : String) : ∀ (turns : List (Nat × Persona)) (log : List String)
    (i r : Nat) (a : Persona), turns[i]? = some (r, a) →
    (debateLogAux argue topic turns log)[log.length + i]? =
      some (mkLogEntry argue r a topic
        ((debateLogAux argue topic turns log).take (log.length + i))) := by
  intro turns
  induction turns with
  | nil => intro log i r a h; simp at h
  | cons t rest ih =>
      intro log i r a h
      match i with
      | 0 =>
          have ht : t = (r, a) := by simpa using h
          subst ht
          simp only [debateLogAux]
          have hpre : (log ++ [mkLogEntry argue r a topic log]) <+:
              debateLogAux argue topic rest (log ++ [mkLogEntry argue r a topic log]) :=
            debateLogAux_lead argue topic rest _
          have h1 : (debateLogAux argue topic rest
                (log ++ [mkLogEntry argue r a topic log]))[log.length + 0]? =
              (log ++ [mkLogEntry argue r a topic log])[log.length]? := by
            rw [Nat.add_zero]
            exact leadGetElem hpre (by simp)
          have h2 : (log ++ [mkLogEntry argue r a topic log])[log.length]? =
              some (mkLogEntry argue r a topic log) := by
            simp [List.getElem?_append]
          have h3 : (debateLogAux argue topic rest
                (log ++ [mkLogEntry argue r a topic log])).take (log.length + 0) = log := by
            rw [Nat.add_zero]
            have hlog : log <+: debateLogAux argue topic rest
                (log ++ [mkLogEntry argue r a topic log]) :=
              (List.prefix_append log _).trans hpre
            exact leadTakeEq hlog
          rw [h1, h2, h3]
      | Nat.succ j =>
          have hh : rest[j]? = some (r, a) := by simpa using h
          simp only [debateLogAux]
          have hrec := ih (log ++ [mkLogEntry argue t.1 t.2 topic log]) j r a hh
          have hlen : (log ++ [mkLogEntry argue t.1 t.2 topic log]).length =
              log.length + 1 := by simp
          rw [hlen] at hrec
          rw [show log.length + (j + 1) = log.length + 1 + j by omega]
          exact hrec

/-- C3: whenever the underlying completion calls succeed, the transcript
handed to the verdict call has exactly 15 entries (3 personas × 5 rounds) in
persona-then-round order — turn k belongs to round k/3 + 1 and persona k%3 of
the fixed roster — and the entry of each turn is built from the transcript
produced by all previous turns, so the prompt of every turn sees all prior
entries. -/
theorem debate_transcript_order (argue : Nat → Persona → String → List String → String)
    (topic : String) :
    (debateLog argue topic).length = 15 ∧
    (∀ k, k < 15 → debateTurns[k]? = some (k / 3 + 1, debateAgents[k % 3]!)) ∧
    (∀ k r a, debateTurns[k]? = some (r, a) →
      (debateLog argue topic)[k]? =
        some (mkLogEntry argue r a topic ((debateLog argue topic).take k))) ∧
    (∀ verdictOracle summOracle input history,
      debateNodeRun argue verdictOracle summOracle input history =
        (verdictOracle ((resolveTopic summOracle input history).1)
            (debateLog argue ((resolveTopic summOracle input history).1)),
          debateLog argue ((resolveTopic summOracle input history).1),
          (resolveTopic summOracle input history).1)) := by
  refine ⟨?_, by decide, ?_, fun _ _ _ _ => rfl⟩
  · rw [debateLog, debateLogAux_length]
    decide
  · intro k r a h
    have := debateLogAux_getElem argue topic debateTurns [] k r a h
    simpa using this

/-- A concrete arguing oracle. -/
def roleArgue : Nat → Persona → String → List String → String :=
  fun r a _ _ => a.role ++ " 라운드 " ++ toString r

theorem debate_transcript_order_witness :
    (debateLog roleArgue "엔비디아").length = 15 ∧
    debateTurns[3]? = some (2, debateAgents[0]!) ∧
    (debateLog roleArgue "엔비디아")[3]? =
      some (mkLogEntry roleArgue 2 (debateAgents[0]!) "엔비디아"
        ((debateLog roleArgue "엔비디아").take 3)) :=
  ⟨(debate_transcript_order roleArgue "엔비디아").1,
   by
    have := (debate_transcript_order roleArgue "엔비디아").2.1 3 (by decide)
    simpa using this,
   (debate_transcript_order roleArgue "엔비디아").2.2.1 3 2 (debateAgents[0]!)
     (by decide)⟩

/-
Report stage (src/finance/node.py, FinanceNode).
-/

/-- Observable events of one FinanceNode.run invocation, in order. -/
inductive FinEvent where
  | topicCall
  | legalLookup (query : String)
  | reportGenCall
  | dbPersist (topic : String) (report : String)
deriving DecidableEq, Repr

/-- The compliance query string built from the resolved topic. -/
def legalQuery (topic : String) : String :=
  topic ++ " financial regulations compliance restrictions"

/-- The `legal_context` variable after the try/except: the provider result,
or `f"Legal search error: {e}"` when the lookup raised. -/
def legalContextOf (legalOutcome : Except String String) : String :=
  match legalOutcome with
  | .error e => "Legal search error: " ++ e
  | .ok s => s

/-- `legal_search_success`: the lookup result is non-empty and free of the
three error/not-found markers; a raised lookup leaves it False. -/
def legalSuccess (legalOutcome : Except String String) : Bool :=
  match legalOutcome with
  | .error _ => false
  | .ok s =>
      !s.isEmpty &&
      !(strHasSub s "No related legal documents found") &&
      !(strHasSub s "Legal search failed") &&
      !(strHasSub s "Error:")

/-- The appendix header shared by both branches. -/
def appendixHeader : String := "\n\n---\n\n## 📋 법률 검색 결과\n\n"

/-- The appendix concatenated when the legal search succeeded. -/
def successAppendix (topic legal_context : String) : String :=
  appendixHeader ++ "✅ **법률 데이터베이스 검색 완료**\n\n" ++
  "검색어: `" ++ legalQuery topic ++ "`\n\n" ++
  "**검색된 법률 문서:**\n\n" ++
  "```\n" ++ legal_context.take 500 ++ "...\n```\n" ++
  "\n*전체 법률 정보가 위 보고서 작성에 반영되었습니다.*"

/-- The appendix concatenated when the legal search failed. -/
def failAppendix (topic legal_context : String) : String :=
  appendixHeader ++ "⚠️ **WARNING: 법률 검색 실패**\n\n" ++
  "검색어: `" ++ legalQuery topic ++ "`\n\n" ++
  "**상태:** 관련 법률 문서를 찾지 못했습니다.\n\n" ++
  "**원인:**\n" ++
  "- 법률 데이터베이스에 해당 주제의 문서가 없음\n" ++
  "- 또는 검색 중 오류 발생\n\n" ++
  "**검색 결과:** `" ++ legal_context ++ "`\n\n" ++
  "⚠️ *본 보고서는 법률 검토 없이 작성되었으므로 투자 결정 시 주의가 필요합니다.*"

/-- FinanceNode.run.  `topicOracle` is the result of the
_identify_report_topic completion call, `legalOutcome` the
search_law_documents_rag provider call (error = raised), and `genOracle` the
final report completion call (fed the resolved topic and the legal context
that the system prompt embeds; error = raised).  The returned trace records
the calls made, in order. -/
def financeRun (topicOracle : String) (legalOutcome : Except String String)
    (genOracle : String → String → Except String String) :
    String × List FinEvent :=
  let topic := topicOracle
  let legal_context := legalContextOf legalOutcome
  let events := [FinEvent.topicCall, FinEvent.legalLookup (legalQuery topic),
    FinEvent.reportGenCall]
  match genOracle topic legal_context with
  | .ok report_content =>
      let legal_appendix :=
        if legalSuccess legalOutcome then successAppendix topic legal_context
        else failAppendix topic legal_context
      (report_content ++ legal_appendix, events)
  | .error e => ("보고서 생성 중 오류가 발생했습니다: " ++ e, events)

/-- Model of _sync_user_db, the persistence helper FinanceNode defines: it would emit
a store write.  FinanceNode.run never invokes it, and FinanceNode.__init__
never initializes the `self.supabase` handle it references. -/
def syncUserDb (topic report : String) : FinEvent :=
  FinEvent.dbPersist topic report

lemma financeRun_trace (topicOracle : String) (legalOutcome : Except String String)
    (genOracle : String → String → Except String String) :
    (financeRun topicOracle legalOutcome genOracle).2 =
      [FinEvent.topicCall, FinEvent.legalLookup (legalQuery topicOracle),
        FinEvent.reportGenCall] := by
  unfold financeRun
  cases h : genOracle topicOracle (legalContextOf legalOutcome) <;> simp [h]

/-- C5: every FinanceNode.run performs the compliance lookup against the
document-similarity provider, keyed on the resolved topic, and it does so
before the report-generating completion call — unconditionally, for every
behaviour of the model oracles, so it is not a tool the model may skip. -/
theorem report_mandatory_legal_lookup (topicOracle : String)
    (legalOutcome : Except String String)
    (genOracle : String → String → Except String String) :
    (financeRun topicOracle legalOutcome genOracle).2 =
      [FinEvent.topicCall, FinEvent.legalLookup (legalQuery topicOracle),
        FinEvent.reportGenCall] ∧
    ∃ i j : Nat, i < j ∧
      (financeRun topicOracle legalOutcome genOracle).2[i]? =
        some (FinEvent.legalLookup (legalQuery topicOracle)) ∧
      (financeRun topicOracle legalOutcome genOracle).2[j]? =
        some FinEvent.reportGenCall := by
  have htr := financeRun_trace topicOracle legalOutcome genOracle
  exact ⟨htr, 1, 2, by omega, by rw [htr]; rfl, by rw [htr]; rfl⟩

lemma charsHaveSub_append_right (pat l1 l2 : List Char)
    (h : charsHaveSub pat l2 = true) :
    charsHaveSub pat (l1 ++ l2) = true := by
  induction l1 with
  | nil => simpa using h
  | cons c cs ih =>
      simp only [List.cons_append, charsHaveSub, List.append_eq]
      rw [ih]
      simp

lemma strHasSub_append_right (s1 s2 pat : String)
    (h : strHasSub s2 pat = true) :
    strHasSub (s1 ++ s2) pat = true := by
  unfold strHasSub at *
  have hd : (s1 ++ s2).toList = s1.toList ++ s2.toList := by
    simp [String.toList]
  rw [hd]
  exact charsHaveSub_append_right _ _ _ h

/-- C8: when the compliance lookup fails (empty result, an error/not-found
marker, or a raised provider error) but report generation succeeds, the stage
still returns a report, namely the model-generated body with the failure
appendix concatenated after it — never merged into it — and that appendix
states that the report was written without legal review. -/
theorem report_failure_appendix (topicOracle : String)
    (legalOutcome : Except String String)
    (genOracle : String → String → Except String String) (body : String) :
    legalSuccess legalOutcome = false →
    genOracle topicOracle (legalContextOf legalOutcome) = .ok body →
    (financeRun topicOracle legalOutcome genOracle).1 =
      body ++ failAppendix topicOracle (legalContextOf legalOutcome) ∧
    strHasSub (failAppendix topicOracle (legalContextOf legalOutcome))
      "본 보고서는 법률 검토 없이 작성되었으므로 투자 결정 시 주의가 필요합니다" = true := by
  intro hfail hgen
  constructor
  · unfold financeRun
    simp [hgen, hfail]
  · unfold failAppendix
    apply strHasSub_append_right
    decide

theorem report_failure_appendix_witness :
    (financeRun "가상화폐" (.ok "") (fun _ _ => .ok "보고서 본문")).1 =
      "보고서 본문" ++ failAppendix "가상화폐" (legalContextOf (.ok "")) ∧
    strHasSub (failAppendix "가상화폐" (legalContextOf (.ok "")))
      "본 보고서는 법률 검토 없이 작성되었으므로 투자 결정 시 주의가 필요합니다" = true :=
  report_failure_appendix "가상화폐" (.ok "") (fun _ _ => .ok "보고서 본문")
    "보고서 본문" (by decide) rfl

/-- C10 (code bug): no invocation of FinanceNode.run, for any oracle
behaviour, ever emits a store write — the report and resolved topic are never
persisted, because run never calls _sync_user_db; in particular a fully
successful run only performs the topic call, the legal lookup and the
report-generation call. -/
theorem report_never_persisted :
    (∀ (topicOracle : String) (legalOutcome : Except String String)
        (genOracle : String → String → Except String String) (t r : String),
      syncUserDb t r ∉ (financeRun topicOracle legalOutcome genOracle).2) ∧
    (financeRun "삼성전자" (.ok "자본시장법 관련 조항") (fun _ _ => .ok "최종 보고서")).2 =
      [FinEvent.topicCall, FinEvent.legalLookup (legalQuery "삼성전자"),
        FinEvent.reportGenCall] := by
  constructor
  · intro topicOracle legalOutcome genOracle t r
    rw [financeRun_trace]
    simp [syncUserDb]
  · exact financeRun_trace _ _ _
